import Mathlib

/-!
Shallow embedding of the keyboard recorder/playback engine
(`src/src-tauri/src/lib.rs` of Tauri-Keyboard-Recorder).

The Rust code keeps its state in process-wide globals:
  * `IS_LISTENING : AtomicBool` — recording-active flag,
  * `STOP_PLAYBACK : AtomicBool` — playback-stop-requested flag (initially true),
  * `RECORDER : Mutex<Recorder>` — the ordered list of captured events,
  * `THREAD_HANDLES : Mutex<Option<(JoinHandle, JoinHandle)>>` — the two
    background-thread handles (keyboard listener, hotkey dispatcher).

Here the flags and the recording become an explicit `State` record threaded
through the operations; the thread-handle pair is modelled separately as an
`Option (Bool × Bool)` where each component is the handle's `is_finished()`
answer.  Timestamps (`SystemTime` in rdev events) are modelled as `Nat`
(nanoseconds since some epoch); `SystemTime::duration_since` returns `Err`
when the argument is later, and `unwrap_or_default` maps that to a zero
duration, which coincides with truncated `Nat` subtraction.

`playback` runs concurrently with writers of `STOP_PLAYBACK` (the hotkey
thread and the command facade can call `stop_listen` mid-playback).  The
value the playback loop observes at its n-th boundary check of
`STOP_PLAYBACK` is therefore supplied by an oracle `stopAt : Nat → Bool`.
A run with no concurrent writer corresponds to the constant-false oracle,
because `playback` itself stores `false` into the flag before its first
check and never writes it again.
-/

/-- The payload-discriminated event kind of an rdev `Event`
(`KeyPress`, `KeyRelease`, `MouseMove`, and the remaining variants the code
matches with `_`).  Key codes and mouse coordinates are opaque data here. -/
inductive EventType where
  | keyPress (key : Nat)
  | keyRelease (key : Nat)
  | mouseMove (x y : Int)
  | other
deriving DecidableEq, Repr

/-- An rdev `Event`: a capture timestamp (`event.time`) and an event kind.
Events are cloned wholesale by the Rust code, so these two fields travel
together verbatim. -/
structure Event where
  time : Nat
  event_type : EventType
deriving DecidableEq, Repr

/-- The mutable global state of `lib.rs`: `IS_LISTENING`, `STOP_PLAYBACK`
and `RECORDER.events`. -/
structure State where
  is_listening : Bool
  stop_playback : Bool
  events : List Event
deriving DecidableEq, Repr

/-- `record_event` (lib.rs lines 125-131): drop the event when
`IS_LISTENING` is false, otherwise push a clone onto `RECORDER.events`. -/
def record_event (event : Event) (s : State) : State :=
  if !s.is_listening then s
  else { s with events := s.events ++ [event] }

/-- `_key_press_action` (lib.rs line 35): forwards to `record_event`. -/
def key_press_action (event : Event) (_key : Nat) (s : State) : State :=
  record_event event s

/-- `_key_release_action` (lib.rs line 43): empty body, state untouched. -/
def key_release_action (_event : Event) (_key : Nat) (s : State) : State := s

/-- `_mouse_move_action` (lib.rs line 50): empty body, state untouched. -/
def mouse_move_action (_event : Event) (_x _y : Int) (s : State) : State := s

/-- `callback` (lib.rs lines 84-92): dispatch on the event kind; the
catch-all arm does nothing. -/
def callback (event : Event) (s : State) : State :=
  match event.event_type with
  | .keyPress key => key_press_action event key s
  | .keyRelease key => key_release_action event key s
  | .mouseMove x y => mouse_move_action event x y s
  | .other => s

/-- `start_listen` (lib.rs lines 175-181): store false into `STOP_PLAYBACK`,
store true into `IS_LISTENING`, clear `RECORDER.events`, then return the
loaded value of `IS_LISTENING`. -/
def start_listen (s : State) : Bool × State :=
  let s1 := { s with stop_playback := false, is_listening := true, events := [] }
  (s1.is_listening, s1)

/-- `stop_listen` (lib.rs lines 184-189): store true into `STOP_PLAYBACK`,
store false into `IS_LISTENING`, then return the loaded value of
`IS_LISTENING`. -/
def stop_listen (s : State) : Bool × State :=
  let s1 := { s with stop_playback := true, is_listening := false }
  (s1.is_listening, s1)

/-- `check_keyboard_status` (lib.rs lines 194-200): with the handle pair
modelled by its `is_finished()` answers `(keyboard_finished,
hotkey_finished)`, return `!keyboard_finished` when the pair is present and
false when it is absent. -/
def check_keyboard_status (handles : Option (Bool × Bool)) : Bool :=
  match handles with
  | some (keyboard_finished, _) => !keyboard_finished
  | none => false

/-- An OS input-synthesis request issued during playback (`simulate` in
`_play_key_press` / `_play_key_release`). -/
inductive SimCall where
  | keyPress (key : Nat)
  | keyRelease (key : Nat)
deriving DecidableEq, Repr

/-- The synthesis call the playback match arms make for one event:
key-press and key-release call `simulate`; `_play_mouse_move` has an empty
body and the catch-all arm does nothing. -/
def simOf (e : Event) : Option SimCall :=
  match e.event_type with
  | .keyPress k => some (.keyPress k)
  | .keyRelease k => some (.keyRelease k)
  | .mouseMove _ _ => none
  | .other => none

/-- Observable trace of one `playback` run: whether the fixed 250 ms settle
sleep happened, the per-event sleep durations in order, and the events that
reached the synthesis step in order. -/
structure PlayTrace where
  settled : Bool
  delays : List Nat
  processed : List Event
deriving DecidableEq, Repr

/-- The OS synthesis calls a trace performs. -/
def simCalls (tr : PlayTrace) : List SimCall :=
  tr.processed.filterMap simOf

/-- The `for event in events.iter()` loop of `playback` (lib.rs lines
217-234).  Arguments: the stop-flag oracle, the remaining snapshot, the
current `last_event_time`, and the index of the next boundary check.  Each
iteration checks the flag (breaking with `is_stop = true` when it reads
true), computes `delay = event.time.duration_since(last_event_time)
.unwrap_or_default()` (truncated subtraction on `Nat`), sleeps, synthesizes
the event, and sets `last_event_time := event.time`.
Returns `(is_stop, sleeps, processed events)`. -/
def playbackLoop (stopAt : Nat → Bool) :
    List Event → Nat → Nat → Bool × List Nat × List Event
  | [], _, _ => (false, [], [])
  | e :: rest, last, i =>
    if stopAt i then (true, [], [])
    else
      let r := playbackLoop stopAt rest e.time (i + 1)
      (r.1, (e.time - last) :: r.2.1, e :: r.2.2)

/-- `playback` (lib.rs lines 205-237): clone `RECORDER.events`; if the
clone is empty return false at once (no sleep, no flag write); otherwise
sleep 250 ms, store false into `STOP_PLAYBACK`, initialise
`last_event_time := events[0].time`, run the loop, and return `is_stop`.
The recording and `IS_LISTENING` are never written. -/
def playback (stopAt : Nat → Bool) (s : State) : Bool × State × PlayTrace :=
  match s.events with
  | [] => (false, s, ⟨false, [], []⟩)
  | e0 :: rest =>
    let r := playbackLoop stopAt (e0 :: rest) e0.time 0
    (r.1, { s with stop_playback := false }, ⟨true, r.2.1, r.2.2⟩)

/-- `start_record` Tauri command (lib.rs line 241): pass-through. -/
def start_record : State → Bool × State := start_listen

/-- `stop_record` Tauri command (lib.rs line 244): pass-through. -/
def stop_record : State → Bool × State := stop_listen

/-- `play_record` Tauri command (lib.rs line 247): pass-through. -/
def play_record : (Nat → Bool) → State → Bool × State × PlayTrace := playback

/-- `keyboard_status` Tauri command (lib.rs line 250): pass-through. -/
def keyboard_status : Option (Bool × Bool) → Bool := check_keyboard_status

/-- Is the event one the capture dispatch records (a key press)? -/
def isKeyPressEvent (e : Event) : Bool :=
  match e.event_type with
  | .keyPress _ => true
  | _ => false

/-- Inter-event sleep durations for a processed prefix, starting from a
given `last_event_time`: each entry is the event time minus the previous
event's time, truncated at zero. -/
def delaysOf : Nat → List Event → List Nat
  | _, [] => []
  | last, e :: rest => (e.time - last) :: delaysOf e.time rest

/-- Status of the hotkey dispatch thread spawned by
`register_hotkey_action` (lib.rs lines 136-162): its body either panics in
one of the four `.expect` calls (manager creation, three registrations) or
reaches the dispatch loop.  A panic unwinds only this spawned thread. -/
inductive HotkeyThreadStatus where
  | dispatching
  | panicked (msg : String)
deriving DecidableEq, Repr

/-- The body of the thread spawned by `register_hotkey_action`:
`GlobalHotKeyManager::new().expect(...)` then three
`hotkey_manager.register(...).expect(...)` calls, in source order, each
turning failure into a panic of this thread; on success the body enters the
dispatch loop. -/
def hotkey_thread_body (managerOk reg1Ok reg2Ok reg3Ok : Bool) :
    HotkeyThreadStatus :=
  if managerOk = false then .panicked "Failed to create GlobalHotKey manager"
  else if reg1Ok = false then .panicked "Failed to register Command+Shift+G hotkey"
  else if reg2Ok = false then .panicked "Failed to register Command+Control+G hotkey"
  else if reg3Ok = false then .panicked "Failed to register Command+Option+G hotkey"
  else .dispatching

/-- `register_hotkey_action` (lib.rs lines 136-162): `spawn` returns the
new thread's handle immediately; the handle carries the spawned body's
eventual status. -/
def register_hotkey_action (managerOk reg1Ok reg2Ok reg3Ok : Bool) :
    HotkeyThreadStatus :=
  hotkey_thread_body managerOk reg1Ok reg2Ok reg3Ok

/-- `init_setting` (lib.rs lines 168-172): spawns the keyboard listener and
the hotkey thread and returns `Ok((keyboard_handle, hotkey_handle))`
unconditionally — it has no failing path. -/
def init_setting (keyboardStatus : HotkeyThreadStatus)
    (managerOk reg1Ok reg2Ok reg3Ok : Bool) :
    Except String (HotkeyThreadStatus × HotkeyThreadStatus) :=
  Except.ok (keyboardStatus, register_hotkey_action managerOk reg1Ok reg2Ok reg3Ok)

/-- Whether `run` (lib.rs lines 254-268) proceeds past initialization:
`init_setting().expect(...)` aborts only when `init_setting` returns an
error, after which `run` stores the handles and starts the Tauri builder. -/
def run_proceeds_past_init (keyboardStatus : HotkeyThreadStatus)
    (managerOk reg1Ok reg2Ok reg3Ok : Bool) : Bool :=
  (init_setting keyboardStatus managerOk reg1Ok reg2Ok reg3Ok).isOk

/-- A concrete key-press event, for evaluating theorems on real inputs. -/
def evPressA : Event := ⟨100, .keyPress 4⟩

/-- A concrete key-release event. -/
def evReleaseA : Event := ⟨150, .keyRelease 4⟩

/-- A second concrete key-press event, 130 time units after `evPressA`. -/
def evPressB : Event := ⟨230, .keyPress 5⟩

/-- A concrete mouse-move event. -/
def evMove : Event := ⟨260, .mouseMove 3 7⟩

/-- A concrete idle state holding a two-event recording. -/
def sTwo : State := ⟨false, true, [evPressA, evPressB]⟩

/-- A concrete idle state holding a three-event recording. -/
def sThree : State := ⟨false, true, [evPressA, evReleaseA, evPressB]⟩

/-- A concrete idle state holding a one-event recording. -/
def sOne : State := ⟨false, true, [evPressA]⟩

/-! ## Helper lemmas -/

/-- While recording is active, folding the capture callback over a batch of
incoming events appends exactly the key-press events, in order. -/
theorem foldl_callback_active (evs : List Event) (s : State)
    (h : s.is_listening = true) :
    evs.foldl (fun st e => callback e st) s =
      { s with events := s.events ++ evs.filter isKeyPressEvent } := by
  induction evs generalizing s with
  | nil => simp
  | cons e rest ih =>
    obtain ⟨l, p, acc⟩ := s
    simp only at h
    subst h
    have hcb : callback e ⟨true, p, acc⟩ =
        ⟨true, p, acc ++ if isKeyPressEvent e then [e] else []⟩ := by
      cases hET : e.event_type <;>
        simp [callback, key_press_action, key_release_action, mouse_move_action,
          record_event, isKeyPressEvent, hET]
    simp only [List.foldl_cons]
    rw [hcb, ih _ rfl]
    cases hET : e.event_type <;>
      simp [isKeyPressEvent, hET, List.filter_cons, List.append_assoc]

/-- The capture callback never changes the state while recording is off. -/
theorem callback_inactive (e : Event) (s : State)
    (h : s.is_listening = false) : callback e s = s := by
  cases hET : e.event_type <;>
    simp [callback, key_press_action, key_release_action, mouse_move_action,
      record_event, h, hET]

/-- With a stop flag that always reads false, the loop never breaks: it
returns `is_stop = false`, sleeps the inter-event deltas, and processes the
whole snapshot. -/
theorem playbackLoop_no_stop (stopAt : Nat → Bool)
    (hstop : ∀ j, stopAt j = false) :
    ∀ (es : List Event) (last i : Nat),
      playbackLoop stopAt es last i = (false, delaysOf last es, es) := by
  intro es
  induction es with
  | nil => intro last i; simp [playbackLoop, delaysOf]
  | cons e rest ih =>
    intro last i
    simp [playbackLoop, delaysOf, hstop i, ih e.time (i + 1)]

/-- The loop reports an early halt exactly when the flag reads true at some
boundary check it reaches, i.e. at some index within the snapshot. -/
theorem playbackLoop_halts_iff (stopAt : Nat → Bool) :
    ∀ (es : List Event) (last i : Nat),
      (playbackLoop stopAt es last i).1 = true ↔
        ∃ j, j < es.length ∧ stopAt (i + j) = true := by
  intro es
  induction es with
  | nil => intro last i; simp [playbackLoop]
  | cons e rest ih =>
    intro last i
    cases hi : stopAt i with
    | true =>
      simp only [playbackLoop, hi, if_true]
      exact iff_of_true trivial ⟨0, Nat.succ_pos _, by simpa using hi⟩
    | false =>
      have hstep : playbackLoop stopAt (e :: rest) last i =
          ((playbackLoop stopAt rest e.time (i + 1)).1,
            (e.time - last) :: (playbackLoop stopAt rest e.time (i + 1)).2.1,
            e :: (playbackLoop stopAt rest e.time (i + 1)).2.2) := by
        simp [playbackLoop, hi]
      rw [hstep]
      dsimp only
      rw [ih e.time (i + 1)]
      constructor
      · rintro ⟨j, hj, hsa⟩
        exact ⟨j + 1, by simpa using Nat.succ_lt_succ hj,
          by simpa [Nat.add_assoc, Nat.add_comm 1 j] using hsa⟩
      · rintro ⟨j, hj, hsa⟩
        match j with
        | 0 =>
          rw [Nat.add_zero] at hsa
          rw [hi] at hsa
          exact absurd hsa (by simp)
        | j' + 1 =>
          exact ⟨j', by simpa using Nat.lt_of_succ_lt_succ hj,
            by simpa [Nat.add_assoc, Nat.add_comm 1 j'] using hsa⟩

/-- If the first true reading of the flag occurs at the k-th boundary check
the loop reaches, then exactly the first k events are processed. -/
theorem playbackLoop_processed_take (stopAt : Nat → Bool) :
    ∀ (es : List Event) (last i k : Nat),
      (∀ j, j < k → stopAt (i + j) = false) → stopAt (i + k) = true →
      (playbackLoop stopAt es last i).2.2 = es.take k := by
  intro es
  induction es with
  | nil => intro last i k _ _; simp [playbackLoop]
  | cons e rest ih =>
    intro last i k hbefore hk
    match k with
    | 0 => simp [playbackLoop, by simpa using hk]
    | k' + 1 =>
      have hi : stopAt i = false := by simpa using hbefore 0 (Nat.succ_pos k')
      have hb : ∀ j, j < k' → stopAt (i + 1 + j) = false := by
        intro j hj
        have := hbefore (j + 1) (Nat.succ_lt_succ hj)
        simpa [Nat.add_assoc, Nat.add_comm 1 j] using this
      have hk' : stopAt (i + 1 + k') = true := by
        simpa [Nat.add_assoc, Nat.add_comm 1 k'] using hk
      simp [playbackLoop, hi, ih e.time (i + 1) k' hb hk', List.take_succ_cons]

/-- One sleep happens per processed event. -/
theorem delaysOf_length (last : Nat) (es : List Event) :
    (delaysOf last es).length = es.length := by
  induction es generalizing last with
  | nil => simp [delaysOf]
  | cons e rest ih => simp [delaysOf, ih]

/-- The sleep before the first processed event lasts its timestamp minus
the starting `last_event_time`, truncated at zero. -/
theorem delaysOf_head (last : Nat) (e : Event) (rest : List Event) :
    (delaysOf last (e :: rest))[0]? = some (e.time - last) := by
  simp [delaysOf]

/-- The sleep before each later processed event lasts its timestamp minus
the previous event's timestamp, truncated at zero. -/
theorem delaysOf_succ (es : List Event) :
    ∀ (last i : Nat) (ei ei1 : Event), es[i]? = some ei →
      es[i + 1]? = some ei1 →
      (delaysOf last es)[i + 1]? = some (ei1.time - ei.time) := by
  induction es with
  | nil => intro last i ei ei1 h _; simp at h
  | cons e rest ih =>
    intro last i ei ei1 hi hi1
    match i with
    | 0 =>
      simp only [List.getElem?_cons_zero, Option.some.injEq] at hi
      subst hi
      match rest with
      | e1 :: rest' =>
        simp only [List.getElem?_cons_succ, List.getElem?_cons_zero,
          Option.some.injEq] at hi1
        subst hi1
        simp [delaysOf]
    | i' + 1 =>
      simp only [List.getElem?_cons_succ] at hi hi1
      have := ih e.time i' ei ei1 hi hi1
      simpa [delaysOf] using this

/-! ## Claim theorems -/

/-- Claim C4: `start_record` sets playback-stop-requested to false, sets
recording-active to true, replaces the Recording with an empty one
(discarding any previously recorded events unconditionally), and returns
true, for every prior state. -/
theorem start_record_resets (s : State) :
    start_record s =
      (true, { is_listening := true, stop_playback := false, events := [] }) :=
  rfl

/-- Claim C5: `stop_record` sets playback-stop-requested to true, sets
recording-active to false, leaves the Recording unchanged, and returns
false, for every prior state; a second call in a row returns the same
value and produces the same final state as the first. -/
theorem stop_record_spec (s : State) :
    stop_record s =
      (false, { is_listening := false, stop_playback := true,
                events := s.events }) ∧
    stop_record (stop_record s).2 = stop_record s :=
  ⟨rfl, rfl⟩

/-- Claim C6: on an empty Recording, `play_record` returns false at once,
with no settle sleep, no per-event sleep, no OS-synthesis call, and the
state (both flags and the Recording) untouched. -/
theorem play_record_empty (stopAt : Nat → Bool) (s : State)
    (h : s.events = []) :
    play_record stopAt s = (false, s, ⟨false, [], []⟩) ∧
    simCalls (play_record stopAt s).2.2 = [] := by
  have hp : play_record stopAt s = (false, s, ⟨false, [], []⟩) := by
    simp [play_record, playback, h]
  exact ⟨hp, by rw [hp]; rfl⟩

/-- Witness for C6 at a concrete empty-recording state. -/
theorem play_record_empty_witness :
    play_record (fun _ => true) ⟨false, true, []⟩ =
      (false, ⟨false, true, []⟩, ⟨false, [], []⟩) ∧
    simCalls (play_record (fun _ => true) ⟨false, true, []⟩).2.2 = [] :=
  play_record_empty (fun _ => true) ⟨false, true, []⟩ rfl

/-- Claim C7: `play_record` never mutates the Recording and never changes
recording-active, whatever the starting state and the observed stop flag;
the only field it may write is playback-stop-requested. -/
theorem play_record_frame (stopAt : Nat → Bool) (s : State) :
    (play_record stopAt s).2.1.events = s.events ∧
    (play_record stopAt s).2.1.is_listening = s.is_listening := by
  cases h : s.events with
  | nil => simp [play_record, playback, h]
  | cons e0 rest => simp [play_record, playback, h]

/-- Claim C9: `keyboard_status` is true exactly when the stored handle pair
is present and the keyboard-listener handle is not finished; it is false
when the pair is absent, and it never depends on the hotkey-thread
handle. -/
theorem keyboard_status_spec (handles : Option (Bool × Bool)) :
    (keyboard_status handles = true ↔
      ∃ p, handles = some p ∧ p.1 = false) ∧
    (∀ kf a b : Bool,
      keyboard_status (some (kf, a)) = keyboard_status (some (kf, b))) := by
  constructor
  · match handles with
    | none => simp [keyboard_status, check_keyboard_status]
    | some (kf, hf) =>
      cases kf <;> simp [keyboard_status, check_keyboard_status]
  · intro kf a b; rfl

/-- Claim C8 counterexample: with the manager created and the first
registration failing, the hotkey thread panics, yet `init_setting` still
returns Ok and `run` proceeds past initialization — registration failure
is not fatal to process startup. -/
theorem hotkey_failure_not_fatal :
    register_hotkey_action true false true true =
      .panicked "Failed to register Command+Shift+G hotkey" ∧
    run_proceeds_past_init .dispatching true false true true = true :=
  ⟨rfl, rfl⟩

/-- Claim C8 amended: a manager-creation or registration failure panics
only the spawned Hotkey Dispatch thread — its handle then carries a panic
and the dispatch loop is never reached — while `init_setting` returns Ok
unconditionally and the process proceeds past initialization. -/
theorem hotkey_failure_scope (kb : HotkeyThreadStatus)
    (managerOk reg1Ok reg2Ok reg3Ok : Bool) :
    run_proceeds_past_init kb managerOk reg1Ok reg2Ok reg3Ok = true ∧
    ((managerOk && reg1Ok && reg2Ok && reg3Ok) = false →
      register_hotkey_action managerOk reg1Ok reg2Ok reg3Ok ≠ .dispatching) := by
  refine ⟨rfl, ?_⟩
  intro h
  cases managerOk <;> cases reg1Ok <;> cases reg2Ok <;> cases reg3Ok <;>
    simp_all [register_hotkey_action, hotkey_thread_body]

/-- Witness for the amended C8 at a concrete failing registration. -/
theorem hotkey_failure_scope_witness :
    run_proceeds_past_init .dispatching true true false true = true ∧
    register_hotkey_action true true false true ≠ .dispatching := by
  have h := hotkey_failure_scope .dispatching true true false true
  exact ⟨h.1, h.2 (by decide)⟩

/-- Claim C1: after `start_record`, a batch of delivered events, then
`stop_record`, the Recording holds exactly the key-press events of the
batch, verbatim and in arrival order (so zero key-release or pointer-move
entries); and an event delivered while recording-active is false leaves
the state, and hence the Recording, unchanged. -/
theorem record_run_spec (s : State) (evs : List Event) :
    (stop_record (evs.foldl (fun st e => callback e st)
        (start_record s).2)).2.events = evs.filter isKeyPressEvent ∧
    (∀ (t : State) (e : Event), t.is_listening = false → callback e t = t) := by
  constructor
  · have h1 : (start_record s).2 =
        { is_listening := true, stop_playback := false, events := [] } := rfl
    rw [h1, foldl_callback_active evs _ rfl]
    simp [stop_record, stop_listen]
  · exact fun t e h => callback_inactive e t h

/-- Witness for C1: a press/release/press/move batch leaves exactly the
two presses, and a release hitting an inactive state changes nothing. -/
theorem record_run_spec_witness :
    (stop_record ([evPressA, evReleaseA, evPressB, evMove].foldl
        (fun st e => callback e st) (start_record sOne).2)).2.events =
      [evPressA, evPressB] ∧
    callback evReleaseA sOne = sOne := by
  have h := record_run_spec sOne [evPressA, evReleaseA, evPressB, evMove]
  exact ⟨h.1.trans (by decide), h.2 sOne evReleaseA (by decide)⟩

/-- Claim C2: in an uninterrupted playback (the stop flag reads false at
every boundary check) the settle sleep happens, the sleep before the first
event is zero, and the sleep before each later event is that event's
capture timestamp minus the previous event's capture timestamp, truncated
at zero. -/
theorem play_record_timing (s : State) (hne : s.events ≠ []) :
    (play_record (fun _ => false) s).2.2.settled = true ∧
    (play_record (fun _ => false) s).2.2.delays[0]? = some 0 ∧
    (∀ (i : Nat) (ei ei1 : Event), s.events[i]? = some ei →
      s.events[i + 1]? = some ei1 →
      (play_record (fun _ => false) s).2.2.delays[i + 1]? =
        some (ei1.time - ei.time)) := by
  cases h : s.events with
  | nil => exact absurd h hne
  | cons e0 rest =>
    have hl := playbackLoop_no_stop (fun _ => false) (fun _ => rfl)
      (e0 :: rest) e0.time 0
    have hp : play_record (fun _ => false) s =
        (false, { s with stop_playback := false },
          ⟨true, delaysOf e0.time (e0 :: rest), e0 :: rest⟩) := by
      simp [play_record, playback, h, hl]
    refine ⟨by rw [hp], ?_, ?_⟩
    · rw [hp]
      simpa using delaysOf_head e0.time e0 rest
    · intro i ei ei1 hi hi1
      rw [hp]
      exact delaysOf_succ (e0 :: rest) e0.time i ei ei1 (h ▸ hi) (h ▸ hi1)

/-- Witness for C2: on the two-press recording, the first sleep is zero and
the second sleep is the 130-unit gap between the two capture timestamps. -/
theorem play_record_timing_witness :
    (play_record (fun _ => false) sTwo).2.2.settled = true ∧
    (play_record (fun _ => false) sTwo).2.2.delays[0]? = some 0 ∧
    (play_record (fun _ => false) sTwo).2.2.delays[1]? = some 130 := by
  have h := play_record_timing sTwo (by decide)
  exact ⟨h.1, h.2.1, by
    have := h.2.2 0 evPressA evPressB (by decide) (by decide)
    simpa using this⟩

/-- Claim C3: `play_record` returns true exactly when the stop flag reads
true at a boundary check within the snapshot; and when the first true
reading is the k-th check, exactly the first k events are synthesized and
nothing after them. -/
theorem play_record_halt_iff (stopAt : Nat → Bool) (s : State) :
    ((play_record stopAt s).1 = true ↔
      ∃ i, i < s.events.length ∧ stopAt i = true) ∧
    (∀ k : Nat, (∀ j, j < k → stopAt j = false) → stopAt k = true →
      (play_record stopAt s).2.2.processed = s.events.take k) := by
  cases h : s.events with
  | nil =>
    refine ⟨by simp [play_record, playback, h], ?_⟩
    intro k _ _
    simp [play_record, playback, h]
  | cons e0 rest =>
    constructor
    · have := playbackLoop_halts_iff stopAt (e0 :: rest) e0.time 0
      simp only [Nat.zero_add] at this
      rw [show (play_record stopAt s).1 =
          (playbackLoop stopAt (e0 :: rest) e0.time 0).1 by
        simp [play_record, playback, h]]
      rw [this]
    · intro k hb hk
      have := playbackLoop_processed_take stopAt (e0 :: rest) e0.time 0 k
        (by simpa using hb) (by simpa using hk)
      rw [show (play_record stopAt s).2.2.processed =
          (playbackLoop stopAt (e0 :: rest) e0.time 0).2.2 by
        simp [play_record, playback, h]]
      rw [this]

/-- Witness for C3: with a flag that first reads true at the second
boundary check, playback of the three-event recording halts (returns true)
after synthesizing only the first event. -/
theorem play_record_halt_iff_witness :
    (play_record (fun i => decide (1 ≤ i)) sThree).1 = true ∧
    (play_record (fun i => decide (1 ≤ i)) sThree).2.2.processed =
      [evPressA] := by
  have h := play_record_halt_iff (fun i => decide (1 ≤ i)) sThree
  refine ⟨h.1.mpr ⟨1, by decide, by decide⟩, ?_⟩
  have := h.2 1 (fun j hj => by
    have hj0 : j = 0 := Nat.lt_one_iff.mp hj
    subst hj0
    decide) (by decide)
  simpa using this

/-- Claim C10: with a non-empty Recording and no concurrent writer of the
stop flag (the loop then reads the false that playback itself stored after
the settle sleep and before the first check), the run is independent of the
flag's initial value: both runs coincide, return false, synthesize the
whole snapshot, and leave the flag false. -/
theorem play_record_flag_independent (s : State) (b1 b2 : Bool)
    (hne : s.events ≠ []) :
    play_record (fun _ => false) { s with stop_playback := b1 } =
      play_record (fun _ => false) { s with stop_playback := b2 } ∧
    (play_record (fun _ => false) { s with stop_playback := b1 }).1 = false ∧
    (play_record (fun _ => false)
      { s with stop_playback := b1 }).2.2.processed = s.events ∧
    (play_record (fun _ => false)
      { s with stop_playback := b1 }).2.1.stop_playback = false := by
  cases h : s.events with
  | nil => exact absurd h hne
  | cons e0 rest =>
    have hl := playbackLoop_no_stop (fun _ => false) (fun _ => rfl)
      (e0 :: rest) e0.time 0
    have hp : ∀ b : Bool, play_record (fun _ => false)
        { s with stop_playback := b } =
        (false, { s with stop_playback := false },
          ⟨true, delaysOf e0.time (e0 :: rest), e0 :: rest⟩) := by
      intro b
      simp [play_record, playback, h, hl]
    simp only [h] at hp
    rw [hp b1, hp b2]
    exact ⟨rfl, rfl, rfl, rfl⟩

/-- Witness for C10: on the two-press recording, a run whose flag starts
true coincides with one whose flag starts false; the shared run returns
false, synthesizes both events, and leaves the flag false. -/
theorem play_record_flag_independent_witness :
    play_record (fun _ => false) { sTwo with stop_playback := true } =
      play_record (fun _ => false) { sTwo with stop_playback := false } ∧
    (play_record (fun _ => false) { sTwo with stop_playback := true }).1 =
      false ∧
    (play_record (fun _ => false)
      { sTwo with stop_playback := true }).2.2.processed = sTwo.events ∧
    (play_record (fun _ => false)
      { sTwo with stop_playback := true }).2.1.stop_playback = false :=
  play_record_flag_independent sTwo true false (by decide)
